import Mathlib

/-!
Verification development for `src/solution.py`, a small virtual-column
evaluator over tabular data.

The Python source is embedded shallowly:

* the regex character classes `[A-Za-z_]`, `\s` and `[+\-*/]` become the
  boolean character predicates `isLabelChar`, `isSpaceChar`, `isOpChar`
  (for `\s` we model the ASCII whitespace characters `[ \t\n\r\x0b\x0c]`;
  the additional Unicode whitespace accepted by Python's `\s` plays no
  role in any property considered here);
* `is_valid_label` (fullmatch of `^[A-Za-z_]+$`) becomes a boolean check
  that the string is non-empty and consists of label characters only;
* `parse_role` (fullmatch of `^\s*([A-Za-z_]+)\s*([+\-*/])\s*([A-Za-z_]+)\s*$`)
  becomes a deterministic left-to-right scanner.  Because the three
  character classes are pairwise disjoint, the greedy scanner accepts
  exactly the language of the regex, with the same capture groups; this
  equivalence is proved below (`parse_role_sound` / `parse_role_complete`);
* a pandas `DataFrame` becomes an ordered list of named columns of
  rational values; `df.columns` membership, `df[c]` column reads,
  `df.copy()` and the item assignment `df_copy[new_column] = result`
  become the corresponding operations on that list.  Pandas item
  assignment overwrites an existing column in place and appends a fresh
  one at the end, which is what `DataFrame.setCol` does;
* the arithmetic happens elementwise on aligned equal-length columns.
  The `try`/`except` around the evaluation is modelled by making the
  elementwise operation fallible (`Option`): division by zero is the
  evaluation-time fault of the numeric host semantics (the spec calls
  integer division by zero a runtime failure), and a length mismatch
  also fails; any such fault is converted to the empty failure frame,
  exactly as the `except` branch does;
* the statefulness of the Python call (could it mutate its argument?) is
  made explicit: `add_virtual_column_run` returns both the result and
  the caller's table as it stands after the call.  Every operation the
  source applies to `df` itself is a read; the single mutating
  operation, item assignment, is applied to `df.copy()`, so the second
  component is the unchanged input.  `add_virtual_column` projects out
  the result, matching the Python signature.
-/

/-- Character class `[A-Za-z_]` used by `LABEL_REGEX` and by the label
groups of the `parse_role` regex. -/
def isLabelChar (c : Char) : Bool :=
  c.isAlpha || c == '_'

/-- Character class `\s` of the `parse_role` regex (ASCII part:
space, tab, newline, carriage return, vertical tab, form feed). -/
def isSpaceChar (c : Char) : Bool :=
  c == ' ' || c == '\t' || c == '\n' || c == '\r' || c == '\x0b' || c == '\x0c'

/-- Character class `[+\-*/]` of the `parse_role` regex. -/
def isOpChar (c : Char) : Bool :=
  c == '+' || c == '-' || c == '*' || c == '/'

/-- Embedding of `is_valid_label`: `LABEL_REGEX.fullmatch(label)` with
`LABEL_REGEX = ^[A-Za-z_]+$`, i.e. non-empty and all characters in
`[A-Za-z_]`. -/
def is_valid_label (label : String) : Bool :=
  !label.data.isEmpty && label.data.all isLabelChar

/-- Embedding of `parse_role`: fullmatch of
`^\s*([A-Za-z_]+)\s*([+\-*/])\s*([A-Za-z_]+)\s*$` as a deterministic
scanner, returning the three capture groups on success. -/
def parse_role (expression : String) : Option (String × String × String) :=
  let l0 := expression.data.dropWhile isSpaceChar
  let lab1 := l0.takeWhile isLabelChar
  let r1 := (l0.dropWhile isLabelChar).dropWhile isSpaceChar
  if lab1.isEmpty then none
  else
    match r1 with
    | [] => none
    | c :: r2 =>
      if isOpChar c then
        let l3 := r2.dropWhile isSpaceChar
        let lab2 := l3.takeWhile isLabelChar
        let r3 := (l3.dropWhile isLabelChar).dropWhile isSpaceChar
        if lab2.isEmpty then none
        else if r3.isEmpty then some (⟨lab1⟩, ⟨[c]⟩, ⟨lab2⟩)
        else none
      else none

/-- A pandas `DataFrame`: an ordered sequence of named columns.  Column
values are modelled as rationals. -/
structure DataFrame where
  cols : List (String × List ℚ)
deriving DecidableEq

/-- The failure sentinel `pd.DataFrame([])`: a table with no columns. -/
def emptyDF : DataFrame := ⟨[]⟩

/-- Membership test `col in df.columns`. -/
def DataFrame.hasCol (df : DataFrame) (name : String) : Bool :=
  df.cols.any (fun p => p.1 == name)

/-- Column read `df[col]` (callers guard existence with `hasCol`). -/
def DataFrame.getCol (df : DataFrame) (name : String) : List ℚ :=
  match df.cols.find? (fun p => p.1 == name) with
  | some p => p.2
  | none => []

/-- The copy `df.copy()`. -/
def DataFrame.copy (df : DataFrame) : DataFrame := ⟨df.cols⟩

/-- Item assignment `df[name] = v`: overwrite an existing column in
place, otherwise append the new column at the end. -/
def DataFrame.setCol (df : DataFrame) (name : String) (v : List ℚ) : DataFrame :=
  if df.hasCol name then
    ⟨df.cols.map (fun p => if p.1 = name then (p.1, v) else p)⟩
  else ⟨df.cols ++ [(name, v)]⟩

/-- The scalar operation behind each entry of the `operations` dict.
Division is true (rational) division; a zero divisor is the
evaluation-time fault caught by the `try`/`except`. -/
def ratOp (op : String) : Option (ℚ → ℚ → Option ℚ) :=
  if op = "+" then some (fun a b => some (a + b))
  else if op = "-" then some (fun a b => some (a - b))
  else if op = "*" then some (fun a b => some (a * b))
  else if op = "/" then some (fun a b => if b = 0 then none else some (a / b))
  else none

/-- Elementwise application of a scalar operation across two columns,
position by position; fails on a length mismatch or on a failing
position.  This is `func(df[left], df[right])` inside the `try`. -/
def seriesOp (f : ℚ → ℚ → Option ℚ) : List ℚ → List ℚ → Option (List ℚ)
  | [], [] => some []
  | x :: xs, y :: ys =>
    match f x y with
    | none => none
    | some v =>
      match seriesOp f xs ys with
      | none => none
      | some vs => some (v :: vs)
  | _, _ => none

/-- Embedding of `add_virtual_column` with the caller's table threaded
explicitly: the first component is the returned table, the second is the
input object as it stands when the call returns.  The source only ever
reads `df` (`df.columns`, `df[col]`, `df.copy()`); the one mutating
operation, item assignment, is applied to the copy, so every branch
returns the untouched `df` as second component. -/
def add_virtual_column_run (df : DataFrame) (role : String) (new_column : String) :
    DataFrame × DataFrame :=
  if !is_valid_label new_column then (emptyDF, df)
  else
    match parse_role role with
    | none => (emptyDF, df)
    | some (left_col, op, right_col) =>
      if !is_valid_label left_col then (emptyDF, df)
      else if !df.hasCol left_col then (emptyDF, df)
      else if !is_valid_label right_col then (emptyDF, df)
      else if !df.hasCol right_col then (emptyDF, df)
      else
        match ratOp op with
        | none => (emptyDF, df)
        | some f =>
          match seriesOp f (df.getCol left_col) (df.getCol right_col) with
          | none => (emptyDF, df)
          | some result => ((df.copy).setCol new_column result, df)

/-- Embedding of `add_virtual_column` proper (the returned table). -/
def add_virtual_column (df : DataFrame) (role : String) (new_column : String) :
    DataFrame :=
  (add_virtual_column_run df role new_column).1

/-- The worked example table `{a:[1,2,3], b:[4,5,6]}`. -/
def exDF : DataFrame := ⟨[("a", [1, 2, 3]), ("b", [4, 5, 6])]⟩

/-- A table whose `b` column contains a zero, so that `a / b` faults
during elementwise evaluation. -/
def exZeroDF : DataFrame := ⟨[("a", [1]), ("b", [0])]⟩

/-- Declarative reading of the label regex `^[A-Za-z_]+$` as the spec
states it: non-empty, and every character an ASCII letter or an
underscore. -/
def LabelShape (s : String) : Prop :=
  s.data ≠ [] ∧ ∀ c ∈ s.data, ('A' ≤ c ∧ c ≤ 'Z') ∨ ('a' ≤ c ∧ c ≤ 'z') ∨ c = '_'

/-- Declarative reading of the expression grammar: the whole string is
optional whitespace, a label, optional whitespace, one operator
character, optional whitespace, a label, optional whitespace. -/
def ShapeMatch (s lhs : String) (c : Char) (rhs : String) : Prop :=
  ∃ w1 w2 w3 w4 : List Char,
    s.data = w1 ++ lhs.data ++ w2 ++ c :: (w3 ++ rhs.data ++ w4) ∧
    (∀ x ∈ w1, isSpaceChar x = true) ∧ (∀ x ∈ w2, isSpaceChar x = true) ∧
    (∀ x ∈ w3, isSpaceChar x = true) ∧ (∀ x ∈ w4, isSpaceChar x = true) ∧
    lhs.data ≠ [] ∧ (∀ x ∈ lhs.data, isLabelChar x = true) ∧
    rhs.data ≠ [] ∧ (∀ x ∈ rhs.data, isLabelChar x = true) ∧
    isOpChar c = true

theorem space_not_label {c : Char} (h : isSpaceChar c = true) : isLabelChar c = false := by
  simp only [isSpaceChar, Bool.or_eq_true, beq_iff_eq] at h
  rcases h with ((((rfl | rfl) | rfl) | rfl) | rfl) | rfl <;> decide

theorem op_not_label {c : Char} (h : isOpChar c = true) : isLabelChar c = false := by
  simp only [isOpChar, Bool.or_eq_true, beq_iff_eq] at h
  rcases h with ((rfl | rfl) | rfl) | rfl <;> decide

theorem op_not_space {c : Char} (h : isOpChar c = true) : isSpaceChar c = false := by
  simp only [isOpChar, Bool.or_eq_true, beq_iff_eq] at h
  rcases h with ((rfl | rfl) | rfl) | rfl <;> decide

theorem label_not_space {c : Char} (h : isLabelChar c = true) : isSpaceChar c = false := by
  cases hs : isSpaceChar c with
  | false => rfl
  | true => rw [space_not_label hs] at h; cases h

theorem isLabelChar_iff (c : Char) :
    isLabelChar c = true ↔ ('A' ≤ c ∧ c ≤ 'Z') ∨ ('a' ≤ c ∧ c ≤ 'z') ∨ c = '_' := by
  simp [isLabelChar, Char.isAlpha, Char.isUpper, Char.isLower, Char.le_def, or_assoc]

theorem is_valid_label_iff (s : String) :
    is_valid_label s = true ↔ s.data ≠ [] ∧ ∀ c ∈ s.data, isLabelChar c = true := by
  simp [is_valid_label, List.isEmpty_iff]

theorem dropWhile_append_all {p : Char → Bool} {xs : List Char} (ys : List Char)
    (h : ∀ x ∈ xs, p x = true) :
    (xs ++ ys).dropWhile p = ys.dropWhile p := by
  induction xs with
  | nil => rfl
  | cons a l ih =>
    rw [List.cons_append, List.dropWhile_cons, h a (List.mem_cons_self a l)]
    exact ih fun x hx => h x (List.mem_cons_of_mem a hx)

theorem takeWhile_append_all {p : Char → Bool} {xs : List Char} (ys : List Char)
    (h : ∀ x ∈ xs, p x = true) :
    (xs ++ ys).takeWhile p = xs ++ ys.takeWhile p := by
  induction xs with
  | nil => rfl
  | cons a l ih =>
    rw [List.cons_append, List.takeWhile_cons, h a (List.mem_cons_self a l)]
    exact congrArg (a :: ·) (ih fun x hx => h x (List.mem_cons_of_mem a hx))

theorem dropWhile_cons_neg {p : Char → Bool} {a : Char} (l : List Char) (h : p a = false) :
    (a :: l).dropWhile p = a :: l := by
  simp [List.dropWhile_cons, h]

theorem takeWhile_cons_neg {p : Char → Bool} {a : Char} (l : List Char) (h : p a = false) :
    (a :: l).takeWhile p = [] := by
  simp [List.takeWhile_cons, h]

theorem parse_role_sound {s lhs o rhs : String}
    (h : parse_role s = some (lhs, o, rhs)) :
    ∃ c : Char, o = ⟨[c]⟩ ∧ ShapeMatch s lhs c rhs := by
  simp only [parse_role] at h
  split at h
  · cases h
  next hlab1 =>
    split at h
    · cases h
    next c r2 hr1 =>
      split at h
      next hop =>
        split at h
        · cases h
        next hlab2 =>
          split at h
          next hr3 =>
            rw [Option.some_inj, Prod.mk.injEq, Prod.mk.injEq] at h
            obtain ⟨rfl, rfl, rfl⟩ := h
            refine ⟨c, rfl, ?_⟩
            refine ⟨s.data.takeWhile isSpaceChar,
              ((s.data.dropWhile isSpaceChar).dropWhile isLabelChar).takeWhile isSpaceChar,
              r2.takeWhile isSpaceChar,
              (r2.dropWhile isSpaceChar).dropWhile isLabelChar,
              ?_, ?_, ?_, ?_, ?_, ?_, ?_, ?_, ?_, hop⟩
            · show s.data = _
              conv_lhs => rw [← List.takeWhile_append_dropWhile isSpaceChar s.data]
              conv_lhs =>
                rw [← List.takeWhile_append_dropWhile isLabelChar
                  (s.data.dropWhile isSpaceChar)]
              conv_lhs =>
                rw [← List.takeWhile_append_dropWhile isSpaceChar
                  ((s.data.dropWhile isSpaceChar).dropWhile isLabelChar)]
              rw [hr1]
              conv_lhs => rw [← List.takeWhile_append_dropWhile isSpaceChar r2]
              conv_lhs =>
                rw [← List.takeWhile_append_dropWhile isLabelChar
                  (r2.dropWhile isSpaceChar)]
              simp [List.append_assoc]
            · exact fun x hx => List.mem_takeWhile_imp hx
            · exact fun x hx => List.mem_takeWhile_imp hx
            · exact fun x hx => List.mem_takeWhile_imp hx
            · exact List.dropWhile_eq_nil_iff.mp (by simpa using hr3)
            · simpa using hlab1
            · exact fun x hx => List.mem_takeWhile_imp hx
            · simpa using hlab2
            · exact fun x hx => List.mem_takeWhile_imp hx
          · cases h
      · cases h

theorem takeWhile_label_at_op (w : List Char) (hw : ∀ x ∈ w, isSpaceChar x = true)
    {c : Char} (hc : isOpChar c = true) (t : List Char) :
    (w ++ c :: t).takeWhile isLabelChar = [] := by
  cases w with
  | nil => exact takeWhile_cons_neg t (op_not_label hc)
  | cons a l =>
    exact takeWhile_cons_neg _ (space_not_label (hw a (List.mem_cons_self a l)))

theorem dropWhile_label_at_op (w : List Char) (hw : ∀ x ∈ w, isSpaceChar x = true)
    {c : Char} (hc : isOpChar c = true) (t : List Char) :
    (w ++ c :: t).dropWhile isLabelChar = w ++ c :: t := by
  cases w with
  | nil => exact dropWhile_cons_neg t (op_not_label hc)
  | cons a l =>
    exact dropWhile_cons_neg _ (space_not_label (hw a (List.mem_cons_self a l)))

theorem takeWhile_label_spaces (w : List Char) (hw : ∀ x ∈ w, isSpaceChar x = true) :
    w.takeWhile isLabelChar = [] := by
  cases w with
  | nil => rfl
  | cons a l =>
    exact takeWhile_cons_neg _ (space_not_label (hw a (List.mem_cons_self a l)))

theorem dropWhile_label_spaces (w : List Char) (hw : ∀ x ∈ w, isSpaceChar x = true) :
    w.dropWhile isLabelChar = w := by
  cases w with
  | nil => rfl
  | cons a l =>
    exact dropWhile_cons_neg _ (space_not_label (hw a (List.mem_cons_self a l)))

theorem parse_role_complete {s lhs : String} {c : Char} {rhs : String}
    (h : ShapeMatch s lhs c rhs) : parse_role s = some (lhs, ⟨[c]⟩, rhs) := by
  obtain ⟨w1, w2, w3, w4, hs, hw1, hw2, hw3, hw4, hA, hAc, hB, hBc, hop⟩ := h
  obtain ⟨a, A', hLa⟩ : ∃ a A', lhs.data = a :: A' := by
    cases hL : lhs.data with
    | nil => exact absurd hL hA
    | cons a A' => exact ⟨a, A', rfl⟩
  obtain ⟨b, B', hRb⟩ : ∃ b B', rhs.data = b :: B' := by
    cases hR : rhs.data with
    | nil => exact absurd hR hB
    | cons b B' => exact ⟨b, B', rfl⟩
  have hs' : s.data = w1 ++ (lhs.data ++ (w2 ++ c :: (w3 ++ (rhs.data ++ w4)))) := by
    rw [hs]; simp [List.append_assoc]
  have d0 : s.data.dropWhile isSpaceChar = lhs.data ++ (w2 ++ c :: (w3 ++ (rhs.data ++ w4))) := by
    rw [hs', dropWhile_append_all _ hw1, hLa]
    exact dropWhile_cons_neg _ (label_not_space (hAc a (hLa ▸ List.mem_cons_self a A')))
  have d1 : (lhs.data ++ (w2 ++ c :: (w3 ++ (rhs.data ++ w4)))).takeWhile isLabelChar
      = lhs.data := by
    rw [takeWhile_append_all _ hAc, takeWhile_label_at_op w2 hw2 hop, List.append_nil]
  have d2 : (lhs.data ++ (w2 ++ c :: (w3 ++ (rhs.data ++ w4)))).dropWhile isLabelChar
      = w2 ++ c :: (w3 ++ (rhs.data ++ w4)) := by
    rw [dropWhile_append_all _ hAc, dropWhile_label_at_op w2 hw2 hop]
  have d3 : (w2 ++ c :: (w3 ++ (rhs.data ++ w4))).dropWhile isSpaceChar
      = c :: (w3 ++ (rhs.data ++ w4)) := by
    rw [dropWhile_append_all _ hw2]
    exact dropWhile_cons_neg _ (op_not_space hop)
  have d4 : (w3 ++ (rhs.data ++ w4)).dropWhile isSpaceChar = rhs.data ++ w4 := by
    rw [dropWhile_append_all _ hw3, hRb]
    exact dropWhile_cons_neg _ (label_not_space (hBc b (hRb ▸ List.mem_cons_self b B')))
  have d5 : (rhs.data ++ w4).takeWhile isLabelChar = rhs.data := by
    rw [takeWhile_append_all _ hBc, takeWhile_label_spaces w4 hw4, List.append_nil]
  have d6 : (rhs.data ++ w4).dropWhile isLabelChar = w4 := by
    rw [dropWhile_append_all _ hBc, dropWhile_label_spaces w4 hw4]
  have d7 : w4.dropWhile isSpaceChar = [] := List.dropWhile_eq_nil_iff.mpr hw4
  simp only [parse_role, d0, d1, d2, d3, d4, d5, d6, d7, hop]
  rw [hLa, hRb]
  simp [← hLa, ← hRb]
  exact ⟨hA, hB⟩

theorem run_invalid_name (df : DataFrame) (role nc : String)
    (h : is_valid_label nc = false) :
    add_virtual_column_run df role nc = (emptyDF, df) := by
  simp [add_virtual_column_run, h]

theorem run_no_parse (df : DataFrame) (role nc : String)
    (h : parse_role role = none) :
    add_virtual_column_run df role nc = (emptyDF, df) := by
  simp [add_virtual_column_run, h]

theorem run_gate_operand (df : DataFrame) (role nc lc op rc : String)
    (hp : parse_role role = some (lc, op, rc))
    (h : is_valid_label lc = false ∨ df.hasCol lc = false ∨
      is_valid_label rc = false ∨ df.hasCol rc = false) :
    add_virtual_column_run df role nc = (emptyDF, df) := by
  rcases h with h | h | h | h <;> simp [add_virtual_column_run, hp, h]

theorem run_eval_fail (df : DataFrame) (role nc lc op rc : String)
    (f : ℚ → ℚ → Option ℚ)
    (hp : parse_role role = some (lc, op, rc)) (hf : ratOp op = some f)
    (he : seriesOp f (df.getCol lc) (df.getCol rc) = none) :
    add_virtual_column_run df role nc = (emptyDF, df) := by
  simp [add_virtual_column_run, hp, hf, he]

theorem run_success (df : DataFrame) (role nc lc op rc : String)
    (f : ℚ → ℚ → Option ℚ) (result : List ℚ)
    (hnc : is_valid_label nc = true) (hp : parse_role role = some (lc, op, rc))
    (hlcv : is_valid_label lc = true) (hlc : df.hasCol lc = true)
    (hrcv : is_valid_label rc = true) (hrc : df.hasCol rc = true)
    (hf : ratOp op = some f)
    (he : seriesOp f (df.getCol lc) (df.getCol rc) = some result) :
    add_virtual_column_run df role nc = ((df.copy).setCol nc result, df) := by
  simp [add_virtual_column_run, hnc, hp, hlcv, hlc, hrcv, hrc, hf, he]

theorem run_cases (df : DataFrame) (role nc : String) :
    add_virtual_column_run df role nc = (emptyDF, df) ∨
    ∃ result : List ℚ,
      add_virtual_column_run df role nc = ((df.copy).setCol nc result, df) := by
  unfold add_virtual_column_run
  repeat' split
  all_goals first
    | exact Or.inl rfl
    | exact Or.inr ⟨_, rfl⟩

theorem run_snd (df : DataFrame) (role nc : String) :
    (add_virtual_column_run df role nc).2 = df := by
  unfold add_virtual_column_run
  repeat' split
  all_goals rfl

theorem parse_labels_valid {s lhs o rhs : String}
    (h : parse_role s = some (lhs, o, rhs)) :
    is_valid_label lhs = true ∧ is_valid_label rhs = true ∧
    ∃ c : Char, o = ⟨[c]⟩ ∧ isOpChar c = true := by
  obtain ⟨c, rfl, sh⟩ := parse_role_sound h
  obtain ⟨w1, w2, w3, w4, hs, hw1, hw2, hw3, hw4, hA, hAc, hB, hBc, hop⟩ := sh
  exact ⟨(is_valid_label_iff lhs).mpr ⟨hA, hAc⟩,
    (is_valid_label_iff rhs).mpr ⟨hB, hBc⟩, c, rfl, hop⟩

theorem seriesOp_length {f : ℚ → ℚ → Option ℚ} :
    ∀ {xs ys zs : List ℚ}, seriesOp f xs ys = some zs →
      zs.length = xs.length ∧ ys.length = xs.length
  | [], [], _, h => by simp only [seriesOp, Option.some_inj] at h; simp [← h]
  | [], _ :: _, _, h => by simp [seriesOp] at h
  | _ :: _, [], _, h => by simp [seriesOp] at h
  | x :: xs, y :: ys, zs, h => by
    simp only [seriesOp] at h
    cases hf : f x y with
    | none => rw [hf] at h; cases h
    | some v =>
      rw [hf] at h
      cases hr : seriesOp f xs ys with
      | none => rw [hr] at h; cases h
      | some vs =>
        rw [hr] at h
        obtain ⟨h1, h2⟩ := seriesOp_length hr
        rw [Option.some_inj] at h
        subst h
        simp [h1, h2]

theorem seriesOp_get {f : ℚ → ℚ → Option ℚ} :
    ∀ {xs ys zs : List ℚ}, seriesOp f xs ys = some zs →
      ∀ (i : ℕ) (hi : i < zs.length) (hix : i < xs.length) (hiy : i < ys.length),
        f (xs.get ⟨i, hix⟩) (ys.get ⟨i, hiy⟩) = some (zs.get ⟨i, hi⟩)
  | [], [], _, h => by
    simp only [seriesOp, Option.some_inj] at h
    subst h
    intro i hi
    cases hi
  | [], _ :: _, _, h => by simp [seriesOp] at h
  | _ :: _, [], _, h => by simp [seriesOp] at h
  | x :: xs, y :: ys, zs, h => by
    simp only [seriesOp] at h
    cases hf : f x y with
    | none => rw [hf] at h; cases h
    | some v =>
      rw [hf] at h
      cases hr : seriesOp f xs ys with
      | none => rw [hr] at h; cases h
      | some vs =>
        rw [hr] at h
        rw [Option.some_inj] at h
        subst h
        intro i hi hix hiy
        cases i with
        | zero => exact hf
        | succ n =>
          exact seriesOp_get hr n (Nat.lt_of_succ_lt_succ hi)
            (Nat.lt_of_succ_lt_succ hix) (Nat.lt_of_succ_lt_succ hiy)

theorem copy_cols (df : DataFrame) : (df.copy).cols = df.cols := rfl

theorem copy_hasCol (df : DataFrame) (n : String) :
    (df.copy).hasCol n = df.hasCol n := rfl

theorem digit_not_label {c : Char} (h : c.isDigit = true) : isLabelChar c = false := by
  simp only [Char.isDigit, Bool.and_eq_true, decide_eq_true_eq] at h
  have h3 : c ≠ '_' := by
    intro hc
    rw [hc] at h
    exact absurd h.2 (by decide)
  simp only [isLabelChar, Char.isAlpha, Char.isUpper, Char.isLower, Bool.or_eq_false_iff,
    Bool.and_eq_false_iff, decide_eq_false_iff_not, beq_eq_false_iff_ne]
  refine ⟨⟨Or.inl fun hc => ?_, Or.inl fun hc => ?_⟩, h3⟩
  · have ha : (65 : Nat) ≤ c.val.toNat := hc
    have hb : c.val.toNat ≤ 57 := h.2
    omega
  · have ha : (97 : Nat) ≤ c.val.toNat := hc
    have hb : c.val.toNat ≤ 57 := h.2
    omega

theorem ws_not_label {c : Char} (h : c.isWhitespace = true) : isLabelChar c = false := by
  simp only [Char.isWhitespace, Bool.or_eq_true, beq_iff_eq, decide_eq_true_eq] at h
  rcases h with ((rfl | rfl) | rfl) | rfl <;> decide

/-- C3: `parse_role` returns the triple (left label, operator, right
label) exactly when the whole string, allowing optional whitespace at
the ends and around the operator, matches label-operator-label with
each label one or more letters/underscores and the operator one of
`+ - * /`; otherwise it returns no match.  Being a total function, it
never raises. -/
theorem parse_role_correct (s lhs o rhs : String) :
    parse_role s = some (lhs, o, rhs) ↔
      ∃ c : Char, o = ⟨[c]⟩ ∧ ShapeMatch s lhs c rhs := by
  constructor
  · exact parse_role_sound
  · rintro ⟨c, rfl, hsh⟩
    exact parse_role_complete hsh

/-- C3 witness: `"  a + b  "` parses to `("a","+","b")` (obtained by
applying the correctness theorem to an explicit decomposition of the
string), while `"a + b + c"`, `"a+"`, `"3+b"` and `""` all yield no
match. -/
theorem parse_role_correct_witness :
    parse_role "  a + b  " = some ("a", "+", "b") ∧
    parse_role "a + b + c" = none ∧ parse_role "a+" = none ∧
    parse_role "3+b" = none ∧ parse_role "" = none :=
  ⟨(parse_role_correct "  a + b  " "a" "+" "b").mpr
      ⟨'+', rfl, [' ', ' '], [' '], [' '], [' ', ' '], by decide, by decide, by decide,
        by decide, by decide, by decide, by decide, by decide, by decide, by decide⟩,
    by decide, by decide, by decide, by decide⟩

/-- C4: `is_valid_label` returns true exactly for the non-empty
strings made only of ASCII letters and underscores; moreover any string
containing a digit, a whitespace character, or any other character
outside that class is rejected, and so is the empty string. -/
theorem is_valid_label_correct (s : String) :
    (is_valid_label s = true ↔ LabelShape s) ∧
    (s.data = [] → is_valid_label s = false) ∧
    (∀ c ∈ s.data, c.isDigit = true ∨ c.isWhitespace = true ∨ isLabelChar c = false →
      is_valid_label s = false) := by
  refine ⟨?_, ?_, ?_⟩
  · rw [is_valid_label_iff]
    unfold LabelShape
    constructor
    · rintro ⟨h1, h2⟩
      exact ⟨h1, fun c hc => (isLabelChar_iff c).mp (h2 c hc)⟩
    · rintro ⟨h1, h2⟩
      exact ⟨h1, fun c hc => (isLabelChar_iff c).mpr (h2 c hc)⟩
  · intro h
    simp [is_valid_label, h]
  · intro c hc hbad
    have hlab : isLabelChar c = false := by
      rcases hbad with h | h | h
      · exact digit_not_label h
      · exact ws_not_label h
      · exact h
    cases hv : is_valid_label s with
    | false => rfl
    | true =>
      obtain ⟨-, hall⟩ := (is_valid_label_iff s).mp hv
      rw [hall c hc] at hlab
      cases hlab

/-- C4 witness: the empty string and `"c1"` (digit) are rejected, as
are `"a b"` (whitespace) and `"a%b"` (symbol), while `"col_name"` is
accepted; the general theorem is applied at `"c1"` with the digit `'1'`
and at `"col_name"` through the shape characterization. -/
theorem is_valid_label_correct_witness :
    is_valid_label "" = false ∧ is_valid_label "c1" = false ∧
    is_valid_label "a b" = false ∧ is_valid_label "a%b" = false ∧
    is_valid_label "col_name" = true :=
  ⟨(is_valid_label_correct "").2.1 rfl,
    (is_valid_label_correct "c1").2.2 '1' (by decide) (Or.inl (by decide)),
    (is_valid_label_correct "a b").2.2 ' ' (by decide) (Or.inr (Or.inl (by decide))),
    (is_valid_label_correct "a%b").2.2 '%' (by decide) (Or.inr (Or.inr (by decide))),
    (is_valid_label_correct "col_name").1.mpr ⟨by decide, by decide⟩⟩

/-- C9: whatever `parse_role` accepts is safe for the later stages:
both returned labels pass `is_valid_label`, the returned operator is
one of the four strings `+ - * /`, and the `operations` lookup is
never `None` — so the defensive unsupported-operator branch and the
operand-label-validation branch can never reject after a successful
parse. -/
theorem parse_role_output_safe (s lhs o rhs : String)
    (h : parse_role s = some (lhs, o, rhs)) :
    is_valid_label lhs = true ∧ is_valid_label rhs = true ∧
    (o = "+" ∨ o = "-" ∨ o = "*" ∨ o = "/") ∧ (ratOp o).isSome = true := by
  obtain ⟨hlv, hrv, c, rfl, hc⟩ := parse_labels_valid h
  have ho : (⟨[c]⟩ : String) = "+" ∨ (⟨[c]⟩ : String) = "-" ∨
      (⟨[c]⟩ : String) = "*" ∨ (⟨[c]⟩ : String) = "/" := by
    simp only [isOpChar, Bool.or_eq_true, beq_iff_eq] at hc
    rcases hc with ((rfl | rfl) | rfl) | rfl
    · exact Or.inl rfl
    · exact Or.inr (Or.inl rfl)
    · exact Or.inr (Or.inr (Or.inl rfl))
    · exact Or.inr (Or.inr (Or.inr rfl))
  refine ⟨hlv, hrv, ho, ?_⟩
  rcases ho with h1 | h1 | h1 | h1 <;> rw [h1] <;> rfl

/-- C9 witness: applied to the parse of `"x * y"`. -/
theorem parse_role_output_safe_witness :
    is_valid_label "x" = true ∧ is_valid_label "y" = true ∧
    ("*" = "+" ∨ "*" = "-" ∨ "*" = "*" ∨ "*" = "/") ∧ (ratOp "*").isSome = true :=
  parse_role_output_safe "x * y" "x" "*" "y" (by decide)

/-- C1: for a table containing both operand columns, a parseable
expression, a valid fresh new name and a successful elementwise
evaluation, `add_virtual_column` returns the input columns plus the
new column, whose entry at every position is the operation applied to
the two operand columns at that position. -/
theorem add_virtual_column_correct
    (df : DataFrame) (role nc lc op rc : String)
    (f : ℚ → ℚ → Option ℚ) (result : List ℚ)
    (hnc : is_valid_label nc = true) (hfresh : df.hasCol nc = false)
    (hp : parse_role role = some (lc, op, rc))
    (hlc : df.hasCol lc = true) (hrc : df.hasCol rc = true)
    (hf : ratOp op = some f)
    (he : seriesOp f (df.getCol lc) (df.getCol rc) = some result) :
    add_virtual_column df role nc = ⟨df.cols ++ [(nc, result)]⟩ ∧
    result.length = (df.getCol lc).length ∧
    ∀ (i : ℕ) (hi : i < result.length) (hil : i < (df.getCol lc).length)
      (hir : i < (df.getCol rc).length),
      f ((df.getCol lc).get ⟨i, hil⟩) ((df.getCol rc).get ⟨i, hir⟩) =
        some (result.get ⟨i, hi⟩) := by
  obtain ⟨hlv, hrv, -⟩ := parse_labels_valid hp
  have hrun := run_success df role nc lc op rc f result hnc hp hlv hlc hrv hrc hf he
  refine ⟨?_, (seriesOp_length he).1, fun i hi hil hir => seriesOp_get he i hi hil hir⟩
  show (add_virtual_column_run df role nc).1 = _
  rw [hrun]
  show (df.copy).setCol nc result = _
  rw [DataFrame.setCol, copy_hasCol, hfresh, copy_cols]
  rfl

/-- C1 witness: the worked example `{a:[1,2,3], b:[4,5,6]}` with
expression `"a + b"` and name `"c"` yields
`{a:[1,2,3], b:[4,5,6], c:[5,7,9]}`, by applying the theorem at that
input. -/
theorem add_virtual_column_correct_witness :
    add_virtual_column exDF "a + b" "c" =
      ⟨[("a", [1, 2, 3]), ("b", [4, 5, 6]), ("c", [5, 7, 9])]⟩ := by
  have h := (add_virtual_column_correct exDF "a + b" "c" "a" "+" "b"
    (fun a b => some (a + b)) [5, 7, 9]
    (by decide) (by decide) (by decide) (by decide) (by decide) rfl
    (by
      show seriesOp _ [1, 2, 3] [4, 5, 6] = _
      simp [seriesOp]
      norm_num)).1
  exact h

/-- C2: each validation stage is a hard gate: an invalid new column
name, an unparseable expression, or a parsed operand that is invalid
or names no column of the table, each forces the empty failure table
as result. -/
theorem add_virtual_column_gates (df : DataFrame) (role nc : String) :
    (is_valid_label nc = false → add_virtual_column df role nc = emptyDF) ∧
    (parse_role role = none → add_virtual_column df role nc = emptyDF) ∧
    (∀ lc op rc, parse_role role = some (lc, op, rc) →
      (is_valid_label lc = false ∨ df.hasCol lc = false ∨
        is_valid_label rc = false ∨ df.hasCol rc = false) →
      add_virtual_column df role nc = emptyDF) := by
  refine ⟨fun h => ?_, fun h => ?_, fun lc op rc hp h => ?_⟩
  · show (add_virtual_column_run df role nc).1 = emptyDF
    rw [run_invalid_name df role nc h]
  · show (add_virtual_column_run df role nc).1 = emptyDF
    rw [run_no_parse df role nc h]
  · show (add_virtual_column_run df role nc).1 = emptyDF
    rw [run_gate_operand df role nc lc op rc hp h]

/-- C2 witness: on the worked example table, the digit-containing new
name `"c1"` forces failure despite a valid expression, and `"a + z"`
fails because `z` is not a column. -/
theorem add_virtual_column_gates_witness :
    add_virtual_column exDF "a + b" "c1" = emptyDF ∧
    add_virtual_column exDF "a + z" "c" = emptyDF :=
  ⟨(add_virtual_column_gates exDF "a + b" "c1").1 (by decide),
    (add_virtual_column_gates exDF "a + z" "c").2.2 "a" "+" "z" (by decide)
      (Or.inr (Or.inr (Or.inr (by decide))))⟩

/-- C5: the evaluator is total — it returns either a success table or
the single uniform failure value, the empty table; in particular an
elementwise evaluation fault (after all earlier gates passed) is
caught and converted to that same empty table. -/
theorem add_virtual_column_uniform_failure (df : DataFrame) (role nc : String) :
    (add_virtual_column df role nc = emptyDF ∨
      ∃ result : List ℚ, add_virtual_column df role nc = (df.copy).setCol nc result) ∧
    (∀ lc op rc (f : ℚ → ℚ → Option ℚ), parse_role role = some (lc, op, rc) →
      ratOp op = some f → seriesOp f (df.getCol lc) (df.getCol rc) = none →
      add_virtual_column df role nc = emptyDF) := by
  constructor
  · rcases run_cases df role nc with h | ⟨result, h⟩
    · exact Or.inl (by show (add_virtual_column_run df role nc).1 = emptyDF; rw [h])
    · exact Or.inr ⟨result, by
        show (add_virtual_column_run df role nc).1 = _
        rw [h]⟩
  · intro lc op rc f hp hf he
    show (add_virtual_column_run df role nc).1 = emptyDF
    rw [run_eval_fail df role nc lc op rc f hp hf he]

/-- C5 witness: dividing by a zero entry is an evaluation fault and
yields the empty table: `{a:[1], b:[0]}` with `"a / b"`. -/
theorem add_virtual_column_uniform_failure_witness :
    add_virtual_column exZeroDF "a / b" "c" = emptyDF :=
  (add_virtual_column_uniform_failure exZeroDF "a / b" "c").2 "a" "/" "b"
    (fun a b => if b = 0 then none else some (a / b)) (by decide) rfl
    (by show seriesOp _ [1] [0] = none; simp [seriesOp])

/-- C6: the caller's table is left exactly as it was — the second
component of the explicitly threaded state is the unchanged input on
every path, success and failure alike, so its columns, their order and
all their values are preserved. -/
theorem add_virtual_column_input_unchanged (df : DataFrame) (role nc : String) :
    (add_virtual_column_run df role nc).2 = df :=
  run_snd df role nc

/-- C7: on success the result is the copied input with the new column
set under the new name: appended at the end when the name is fresh,
and with the existing column's values overwritten in place
(last-write-wins, no collision error) when the name already names a
column. -/
theorem add_virtual_column_success_shape
    (df : DataFrame) (role nc lc op rc : String)
    (f : ℚ → ℚ → Option ℚ) (result : List ℚ)
    (hnc : is_valid_label nc = true) (hp : parse_role role = some (lc, op, rc))
    (hlc : df.hasCol lc = true) (hrc : df.hasCol rc = true)
    (hf : ratOp op = some f)
    (he : seriesOp f (df.getCol lc) (df.getCol rc) = some result) :
    add_virtual_column df role nc = (df.copy).setCol nc result ∧
    (df.hasCol nc = false →
      (add_virtual_column df role nc).cols = df.cols ++ [(nc, result)]) ∧
    (df.hasCol nc = true →
      (add_virtual_column df role nc).cols =
        df.cols.map (fun p => if p.1 = nc then (p.1, result) else p)) := by
  obtain ⟨hlv, hrv, -⟩ := parse_labels_valid hp
  have hrun := run_success df role nc lc op rc f result hnc hp hlv hlc hrv hrc hf he
  have h1 : add_virtual_column df role nc = (df.copy).setCol nc result := by
    show (add_virtual_column_run df role nc).1 = _
    rw [hrun]
  refine ⟨h1, fun hfresh => ?_, fun hcoll => ?_⟩
  · rw [h1, DataFrame.setCol, copy_hasCol, hfresh, copy_cols]
    rfl
  · rw [h1, DataFrame.setCol, copy_hasCol, hcoll, copy_cols]
    rfl

/-- C7 witness: reusing the existing name `"a"` on the worked example
overwrites column `a` in place with `a + b` and keeps column `b`. -/
theorem add_virtual_column_success_shape_witness :
    add_virtual_column exDF "a + b" "a" =
      ⟨[("a", [5, 7, 9]), ("b", [4, 5, 6])]⟩ := by
  have h := (add_virtual_column_success_shape exDF "a + b" "a" "a" "+" "b"
    (fun a b => some (a + b)) [5, 7, 9]
    (by decide) (by decide) (by decide) (by decide) rfl
    (by
      show seriesOp _ [1, 2, 3] [4, 5, 6] = _
      simp [seriesOp]
      norm_num)).1
  rw [h]
  decide

/-- C8: the `/` operator is true division, not floor division: on the
worked example, `"a / b"` with name `"d"` produces
`d = [0.25, 0.4, 0.5]`. -/
theorem division_is_true_division :
    add_virtual_column exDF "a / b" "d" =
      ⟨[("a", [1, 2, 3]), ("b", [4, 5, 6]), ("d", [0.25, 0.4, 0.5])]⟩ := by
  have h1 : parse_role "a / b" = some ("a", "/", "b") := by decide
  have h2 : seriesOp (fun a b => if b = 0 then none else some (a / b)) [1, 2, 3] [4, 5, 6] =
      some [(0.25 : ℚ), 0.4, 0.5] := by
    simp [seriesOp]
    norm_num
  simp [add_virtual_column, add_virtual_column_run, h1, h2, is_valid_label,
    isLabelChar, DataFrame.hasCol, DataFrame.getCol, DataFrame.copy,
    DataFrame.setCol, ratOp, exDF, emptyDF]

/-- C10: both operands may be the same label: for any table with a
valid column `lab` and any supported operator character `c`, the
expression written `"lab c lab"` evaluates that operator with the
column as both operands, and on success the new column holds the
operator applied to the column with itself, position by position. -/
theorem same_label_operands
    (df : DataFrame) (lab nc : String) (c : Char)
    (f : ℚ → ℚ → Option ℚ) (result : List ℚ)
    (hlab : is_valid_label lab = true) (hcol : df.hasCol lab = true)
    (hnc : is_valid_label nc = true) (hc : isOpChar c = true)
    (hf : ratOp ⟨[c]⟩ = some f)
    (he : seriesOp f (df.getCol lab) (df.getCol lab) = some result) :
    add_virtual_column df ⟨lab.data ++ ' ' :: c :: ' ' :: lab.data⟩ nc =
      (df.copy).setCol nc result ∧
    ∀ (i : ℕ) (hi : i < result.length) (hil : i < (df.getCol lab).length),
      f ((df.getCol lab).get ⟨i, hil⟩) ((df.getCol lab).get ⟨i, hil⟩) =
        some (result.get ⟨i, hi⟩) := by
  obtain ⟨hne, hchars⟩ := (is_valid_label_iff lab).mp hlab
  have hp : parse_role ⟨lab.data ++ ' ' :: c :: ' ' :: lab.data⟩ =
      some (lab, ⟨[c]⟩, lab) := by
    have hsh : ShapeMatch ⟨lab.data ++ ' ' :: c :: ' ' :: lab.data⟩ lab c lab := by
      refine ⟨[], [' '], [' '], [], ?_, ?_, ?_, ?_, ?_, hne, hchars, hne, hchars, hc⟩
      · show lab.data ++ ' ' :: c :: ' ' :: lab.data = _
        simp
      · intro x hx
        exact absurd hx (List.not_mem_nil x)
      · intro x hx
        rw [List.mem_singleton] at hx
        rw [hx]
        rfl
      · intro x hx
        rw [List.mem_singleton] at hx
        rw [hx]
        rfl
      · intro x hx
        exact absurd hx (List.not_mem_nil x)
    exact parse_role_complete hsh
  have hrun := run_success df ⟨lab.data ++ ' ' :: c :: ' ' :: lab.data⟩ nc
    lab ⟨[c]⟩ lab f result hnc hp hlab hcol hlab hcol hf he
  refine ⟨?_, fun i hi hil => seriesOp_get he i hi hil hil⟩
  show (add_virtual_column_run df _ nc).1 = _
  rw [hrun]

/-- C10 witness: `"a * a"` on the worked example squares column `a`
into a fresh column `sq`. -/
theorem same_label_operands_witness :
    add_virtual_column exDF "a * a" "sq" =
      ⟨[("a", [1, 2, 3]), ("b", [4, 5, 6]), ("sq", [1, 4, 9])]⟩ := by
  have h := (same_label_operands exDF "a" "sq" '*'
    (fun a b => some (a * b)) [1, 4, 9]
    (by decide) (by decide) (by decide) (by decide) rfl
    (by
      show seriesOp _ [1, 2, 3] [1, 2, 3] = _
      simp [seriesOp]
      norm_num)).1
  have hstr : ("a * a" : String) = ⟨"a".data ++ ' ' :: '*' :: ' ' :: "a".data⟩ := rfl
  rw [hstr, h]
  decide
